import Mathlib

/-!
Verification of the pixel-level image-processing core of the clothing
pipeline (src/src/lib/image-utils.ts): mask building (background flood
fill, HSV mannequin-skin classification, morphological cleanup), mask
application with a three-zone alpha decision, green-screen removal, and
the edge anti-aliasing pass.  JavaScript numbers are modelled as exact
rationals; Math.round is half-up floor rounding; Uint8Array cells are
naturals.  Decoding by the external sharp codec is modelled as an
Option-valued oracle argument.
-/

/-- One RGBA pixel of a decoded image (Uint8Array cells, so naturals). -/
structure RGBA where
  r : Nat
  g : Nat
  b : Nat
  a : Nat
deriving DecidableEq, Repr

/-- A decoded image: dimensions plus the flat row-major pixel list
(index y * width + x), mirroring the raw RGBA buffer. -/
structure Image where
  width : Nat
  height : Nat
  data : List RGBA
deriving DecidableEq, Repr

/-- The all-zero pixel used as the out-of-range default of list lookups. -/
def zeroPx : RGBA := ⟨0, 0, 0, 0⟩

/-- Pixel access at flat index i. -/
def pixAt (img : Image) (i : Nat) : RGBA := img.data.getD i zeroPx

/-- Pixel access at coordinates, index (y * width + x) as in the source. -/
def getPixel (img : Image) (x y : Nat) : RGBA := pixAt img (y * img.width + x)

/-- Math.round of the nonnegative rational a / b, as half-up floor
rounding computed on naturals: floor (a / b + 1 / 2). -/
def nround (a b : Nat) : Nat := (2 * a + b) / (2 * b)

/-- Math.round of the rational n / d for a positive denominator d, as
half-up floor rounding on integers (Int division is floor division for
positive denominators). -/
def iround (n d : Int) : Int := (2 * n + d) / (2 * d)

/-- Math.round of a rational, the half-up floor rounding floor (q + 1 / 2);
used by the spec-side definitions that quote the formulas of the spec. -/
def jsRound (q : ℚ) : Int := ⌊q + 1 / 2⌋

/- ===== removeGreenBackground (image-utils.ts lines 475-546) ===== -/

/-- Source condition isGreen of removeGreenBackground: high green channel,
green dominates red and blue by 50, red and blue below 150. -/
def isGreen (p : RGBA) : Prop :=
  150 < p.g ∧ p.r + 50 < p.g ∧ p.b + 50 < p.g ∧ p.r < 150 ∧ p.b < 150

instance (p : RGBA) : Decidable (isGreen p) := by unfold isGreen; infer_instance

/-- Source condition isLimeGreen of removeGreenBackground: bright lime
variants, with the two differences taken over the integers as in JS. -/
def isLimeGreen (p : RGBA) : Prop :=
  200 < p.g ∧ p.r < 200 ∧ p.b < 200 ∧
    30 < (p.g : Int) - (p.r : Int) ∧ 30 < (p.g : Int) - (p.b : Int)

instance (p : RGBA) : Decidable (isLimeGreen p) := by
  unfold isLimeGreen; infer_instance

/-- Loop body of removeGreenBackground: a green or lime-green pixel gets
alpha 0, every other pixel is left untouched. -/
def removeGreenPixel (p : RGBA) : RGBA :=
  if isGreen p ∨ isLimeGreen p then ⟨p.r, p.g, p.b, 0⟩ else p

/-- The pixel loop of removeGreenBackground over the whole buffer. -/
def removeGreenPixels (data : List RGBA) : List RGBA :=
  data.map removeGreenPixel

/-- removeGreenBackground: decode (external, an Option oracle), run the
green-pixel loop, re-encode; any failure is caught and the original
string is returned.  The tolerance parameter is accepted but unused by
the source.  Sum.inl means the original input string is returned,
Sum.inr the image that gets PNG-encoded. -/
def removeGreenBackground (base64Data : String) (dec : Option Image)
    (tolerance : Int) : String ⊕ Image :=
  match dec with
  | none => Sum.inl base64Data
  | some img => Sum.inr ⟨img.width, img.height, removeGreenPixels img.data⟩

/- ===== applyMaskToImage (image-utils.ts lines 558-644) ===== -/

/-- Effective mask brightness of applyMaskToImage:
Math.round ((maskBrightness / 255) * (maskAlpha / 255) * 255), which is
Math.round (maskBrightness * maskAlpha / 255). -/
def effectiveBrightness (maskBrightness maskAlpha : Nat) : Nat :=
  nround (maskBrightness * maskAlpha) 255

/-- Alpha produced by the three-zone decision of applyMaskToImage for one
pixel, from the grayscale mask value, the mask alpha, the threshold
option and the original alpha. -/
def applyMaskAlpha (threshold : Int) (maskBrightness maskAlpha origA : Nat) :
    Nat :=
  let eb := effectiveBrightness maskBrightness maskAlpha
  if (eb : Int) > threshold + 30 then
    origA
  else if (eb : Int) < threshold - 30 then
    0
  else
    let edgeAlpha := iround (((eb : Int) - (threshold - 30)) * 255) 60
    (min (origA : Int) (max 0 edgeAlpha)).toNat

/-- The per-pixel loop of applyMaskToImage: the output starts as a copy of
the original pixels and only the alpha byte is ever rewritten. -/
def applyMaskCore (threshold : Int) (orig mask : List RGBA) : List RGBA :=
  (List.range orig.length).map (fun i =>
    let o := orig.getD i zeroPx
    let m := mask.getD i zeroPx
    ⟨o.r, o.g, o.b, applyMaskAlpha threshold m.r m.a o.a⟩)

/-- applyMaskToImage: both inputs are decoded by the external codec
(Option oracles here, the mask oracle standing for the whole
resize-grayscale-blur-decode mask pipeline); any failure is caught and
the original base64 string is returned unmodified (Sum.inl). -/
def applyMaskToImage (originalBase64 : String) (threshold : Int)
    (decOrig decMask : Option (List RGBA)) : String ⊕ List RGBA :=
  match decOrig, decMask with
  | some o, some m => Sum.inr (applyMaskCore threshold o m)
  | _, _ => Sum.inl originalBase64

/-- Spec-side three-zone alpha, written with the exact words of the spec:
brightness = round ((grayscale / 255) * (maskAlpha / 255) * 255); keep the
original alpha above threshold + 30, zero below threshold - 30, and
otherwise min (original alpha, max (0, round (((brightness -
(threshold - 30)) / 60) * 255))). -/
def specZoneAlpha (threshold : Int) (grayscale maskAlpha origA : Nat) : Nat :=
  let brightness : Int :=
    jsRound ((grayscale / 255 : ℚ) * (maskAlpha / 255 : ℚ) * 255)
  if brightness > threshold + 30 then
    origA
  else if brightness < threshold - 30 then
    0
  else
    (min (origA : Int)
      (max 0 (jsRound ((((brightness : ℚ) - ((threshold : ℚ) - 30)) / 60) * 255)))).toNat

/- ===== Shared BFS flood fill (both variants seed the four image edges
   the same way: the top and bottom rows push without a visited check,
   the left and right columns check the visited bitmap first; the loop
   then scans the growing queue, painting each dequeued pixel and
   pushing unvisited similar 4-neighbors).  image-utils.ts lines
   124-153 and 381-431. ===== -/

/-- The four 4-connected neighbor candidates of (x, y) in source order,
bounds-checked over the integers exactly as the JS code checks
0 <= nx < width and 0 <= ny < height. -/
def nbrs (w h x y : Nat) : List (Nat × Nat) :=
  [((x : Int) - 1, (y : Int)), ((x : Int) + 1, (y : Int)),
   ((x : Int), (y : Int) - 1), ((x : Int), (y : Int) + 1)].filterMap
    (fun q =>
      if 0 ≤ q.1 ∧ q.1 < (w : Int) ∧ 0 ≤ q.2 ∧ q.2 < (h : Int) then
        some (q.1.toNat, q.2.toNat)
      else none)

/-- Seeds pushed by the loop over the top and bottom rows: for each x the
pixel (x, 0) is pushed when similar, then (x, h - 1) when similar, with
no visited check before either push. -/
def seedTB (h : Nat) (sim : Nat → Nat → Bool) : List Nat → List (Nat × Nat)
  | [] => []
  | x :: xs =>
      ((if sim x 0 then [(x, 0)] else []) ++
        (if sim x (h - 1) then [(x, h - 1)] else [])) ++ seedTB h sim xs

/-- One guarded seed push of the left-and-right loop: the pixel q is
pushed when it is similar and not yet visited, the visited set being
exactly the list acc of all pixels pushed so far. -/
def seedNew (acc : List (Nat × Nat)) (s : Bool) (q : Nat × Nat) :
    List (Nat × Nat) :=
  if q ∉ acc ∧ s then [q] else []

/-- Seeds pushed by the loop over the left and right columns: for each y
the pixels (0, y) and (w - 1, y) are pushed when similar and not yet
visited. -/
def seedLR (w : Nat) (sim : Nat → Nat → Bool) :
    List (Nat × Nat) → List Nat → List (Nat × Nat)
  | _, [] => []
  | acc, y :: ys =>
      let s1 := seedNew acc (sim 0 y) (0, y)
      let s2 := seedNew (acc ++ s1) (sim (w - 1) y) (w - 1, y)
      s1 ++ s2 ++ seedLR w sim (acc ++ s1 ++ s2) ys

/-- One BFS state step per unit of fuel: pop the queue head, record it as
painted (mask set to 0, or alpha set to 0), push its unvisited similar
in-bounds neighbors and mark them visited.  Returns the full enqueue
list (the JS queue, which only ever grows), the visited set and the set
of painted pixels.  The fuel chosen in floodFill is provably enough for
the queue to drain. -/
def bfsLoop (w h : Nat) (sim : Nat → Nat → Bool) :
    Nat → List (Nat × Nat) → List (Nat × Nat) →
    Finset (Nat × Nat) → Finset (Nat × Nat) →
    List (Nat × Nat) × Finset (Nat × Nat) × Finset (Nat × Nat)
  | 0, todo, done, vis, rem => (done.reverse ++ todo, vis, rem)
  | _ + 1, [], done, vis, rem => (done.reverse, vis, rem)
  | fuel + 1, p :: rest, done, vis, rem =>
      let fresh := (nbrs w h p.1 p.2).filter
        (fun q => decide (q ∉ vis) && sim q.1 q.2)
      bfsLoop w h sim fuel (rest ++ fresh) (p :: done)
        (vis ∪ fresh.toFinset) (insert p rem)

/-- The whole edge-seeded BFS flood fill shared by
createCodeBasedClothingMask and removeWhiteBackground, parameterized by
the similarity test of the variant.  Result: (enqueue list, visited set,
painted set). -/
def floodFill (w h : Nat) (sim : Nat → Nat → Bool) :
    List (Nat × Nat) × Finset (Nat × Nat) × Finset (Nat × Nat) :=
  let tb := seedTB h sim (List.range w)
  let seeds := tb ++ seedLR w sim tb (List.range h)
  bfsLoop w h sim (seeds.length + w * h) seeds [] seeds.toFinset ∅

/- ===== createCodeBasedClothingMask (image-utils.ts 52-301) ===== -/

/-- Light-background test of the mask builder (line 82): all channels
above 150 and channel spread below 55. -/
def isLightBg (img : Image) (x y : Nat) : Prop :=
  let p := getPixel img x y
  150 < min p.r (min p.g p.b) ∧ max p.r (max p.g p.b) - min p.r (min p.g p.b) < 55

instance (img : Image) (x y : Nat) : Decidable (isLightBg img x y) := by
  unfold isLightBg; infer_instance

/-- The eight anchor points sampled for the background estimate: the four
corners and the four edge midpoints, in source order (line 91). -/
def anchorPoints (w h : Nat) : List (Nat × Nat) :=
  [(0, 0), (w - 1, 0), (0, h - 1), (w - 1, h - 1),
   (w / 2, 0), (w / 2, h - 1), (0, h / 2), (w - 1, h / 2)]

/-- The anchor points of img that pass the light-background test of the
mask builder. -/
def qualAnchorsMask (img : Image) : List (Nat × Nat) :=
  (anchorPoints img.width img.height).filter
    (fun c => decide (isLightBg img c.1 c.2))

/-- Background color estimate of the mask builder (lines 97-114): the
rounded mean of the qualifying anchors, or the default (245, 245, 245)
when no anchor qualifies. -/
def bgEstimateMask (img : Image) : Nat × Nat × Nat :=
  let qual := qualAnchorsMask img
  if qual.length = 0 then (245, 245, 245)
  else
    (nround (qual.map (fun c => (getPixel img c.1 c.2).r)).sum qual.length,
     nround (qual.map (fun c => (getPixel img c.1 c.2).g)).sum qual.length,
     nround (qual.map (fun c => (getPixel img c.1 c.2).b)).sum qual.length)

/-- Similarity test isSimilarToBg of the mask builder (line 116): every
channel within 35 of the estimate, and the pixel itself light. -/
def simMask (img : Image) (bg : Nat × Nat × Nat) (x y : Nat) : Bool :=
  let p := getPixel img x y
  decide (((p.r : Int) - bg.1).natAbs ≤ 35 ∧
    ((p.g : Int) - bg.2.1).natAbs ≤ 35 ∧
    ((p.b : Int) - bg.2.2).natAbs ≤ 35 ∧ isLightBg img x y)

/-- Phase 1 mask: all pixels start at 255 and every painted (dequeued)
background pixel is set to 0 (lines 71 and 139). -/
def maskPhase1 (w h : Nat) (removed : Finset (Nat × Nat)) : List Nat :=
  (List.range (w * h)).map (fun i => if (i % w, i / w) ∈ removed then 0 else 255)

/- ===== Phase 2: HSV mannequin skin detection (lines 160-217) ===== -/

/-- Truncation toward zero of a rational, the semantics JS uses inside its
remainder operator. -/
def ratTrunc (q : ℚ) : Int := if 0 ≤ q then ⌊q⌋ else ⌈q⌉

/-- The JS remainder a % m (sign of the dividend, truncated quotient). -/
def jsMod (a m : ℚ) : ℚ := a - m * ratTrunc (a / m)

/-- RGB to HSV exactly as the source computes it (lines 169-183): channels
normalized by 255, the six-case hue formula with the JS remainder and a
+360 fixup of negative hues, saturation and value in percent. -/
def hsvCode (r g b : Nat) : ℚ × ℚ × ℚ :=
  let rn : ℚ := (r : ℚ) / 255
  let gn : ℚ := (g : ℚ) / 255
  let bn : ℚ := (b : ℚ) / 255
  let cmax := max rn (max gn bn)
  let cmin := min rn (min gn bn)
  let delta := cmax - cmin
  let h0 : ℚ :=
    if 0 < delta then
      if cmax = rn then 60 * jsMod ((gn - bn) / delta) 6
      else if cmax = gn then 60 * ((bn - rn) / delta + 2)
      else 60 * ((rn - gn) / delta + 4)
    else 0
  let hue := if h0 < 0 then h0 + 360 else h0
  let s : ℚ := if cmax = 0 then 0 else delta / cmax * 100
  let v : ℚ := cmax * 100
  (hue, s, v)

/-- Source predicate isMannequinSkin (line 191): warm hue, low-medium
saturation, medium-bright value. -/
def isMannequinSkin (r g b : Nat) : Prop :=
  let hsv := hsvCode r g b
  (10 ≤ hsv.1 ∧ hsv.1 ≤ 50) ∧ (5 ≤ hsv.2.1 ∧ hsv.2.1 ≤ 48) ∧
    (50 ≤ hsv.2.2 ∧ hsv.2.2 ≤ 96)

/-- Source predicate isMannequinShadow (line 198): desaturated warm tone. -/
def isMannequinShadow (r g b : Nat) : Prop :=
  let hsv := hsvCode r g b
  (5 ≤ hsv.1 ∧ hsv.1 ≤ 55) ∧ (3 ≤ hsv.2.1 ∧ hsv.2.1 ≤ 25) ∧
    (35 ≤ hsv.2.2 ∧ hsv.2.2 ≤ 65)

/-- Source predicate isMannequinHighlight (line 205): near-white pixel
that is not too warm. -/
def isMannequinHighlight (r g b : Nat) : Prop :=
  let hsv := hsvCode r g b
  hsv.2.1 < 12 ∧ (82 < hsv.2.2 ∧ hsv.2.2 < 98) ∧
    (200 < r ∧ 190 < g ∧ 175 < b) ∧ (r : Int) - (b : Int) < 40

instance (r g b : Nat) : Decidable (isMannequinSkin r g b) := by
  unfold isMannequinSkin; infer_instance

instance (r g b : Nat) : Decidable (isMannequinShadow r g b) := by
  unfold isMannequinShadow; infer_instance

instance (r g b : Nat) : Decidable (isMannequinHighlight r g b) := by
  unfold isMannequinHighlight; infer_instance

/-- The phase 2 decision for one pixel: any of the three mannequin
predicates fires. -/
def skinFlag (p : RGBA) : Prop :=
  isMannequinSkin p.r p.g p.b ∨ isMannequinShadow p.r p.g p.b ∨
    isMannequinHighlight p.r p.g p.b

instance (p : RGBA) : Decidable (skinFlag p) := by
  unfold skinFlag; infer_instance

/-- Phase 2 over the whole mask: pixels already removed as background are
skipped, every other pixel is set to 0 exactly when a mannequin
predicate fires (lines 160-217). -/
def skinPass (img : Image) (mask : List Nat) : List Nat :=
  (List.range (img.width * img.height)).map (fun i =>
    let m := mask.getD i 0
    if m = 0 then m
    else if skinFlag (pixAt img i) then 0 else m)

/- ===== Phase 3: morphological cleanup (lines 221-268) ===== -/

/-- The 24 positions of the 5 by 5 window around (x, y) minus the center,
for x, y at least 2 (the loops only visit interior pixels). -/
def window24 (x y : Nat) : List (Nat × Nat) :=
  (List.range 5).flatMap (fun dy =>
    (List.range 5).filterMap (fun dx =>
      if dy = 2 ∧ dx = 2 then none else some (x + dx - 2, y + dy - 2)))

/-- Number of 255 values of the mask in the 24-neighbor window. -/
def whiteNeighbors (w : Nat) (mask : List Nat) (x y : Nat) : Nat :=
  (window24 x y).countP (fun c => mask.getD (c.2 * w + c.1) 0 = 255)

/-- Cleanup pass 1 (lines 228-246): an interior 255 pixel whose window is
less than 40 percent white is reclassified to 0.  The pass reads the
phase 2 mask and writes a fresh copy, so it is pointwise. -/
def cleanupPass1 (w h : Nat) (mask : List Nat) : List Nat :=
  (List.range (w * h)).map (fun i =>
    let x := i % w
    let y := i / w
    let v := mask.getD i 0
    if 2 ≤ x ∧ x < w - 2 ∧ 2 ≤ y ∧ y < h - 2 ∧ v = 255 ∧
        ((whiteNeighbors w mask x y : ℚ) < 24 * (4 / 10)) then 0 else v)

/-- One step of cleanup pass 2 at (x, y): an interior 0 pixel that the
flood fill never visited and whose current window is more than 60
percent white is filled back to 255.  Reads and writes the same buffer,
so the pass threads the mask through a fold. -/
def holeStep (w : Nat) (visited : Finset (Nat × Nat)) (mask : List Nat)
    (x y : Nat) : List Nat :=
  if mask.getD (y * w + x) 0 = 0 ∧ (x, y) ∉ visited ∧
      ((whiteNeighbors w mask x y : ℚ) > 24 * (6 / 10)) then
    mask.set (y * w + x) 255
  else mask

/-- Cleanup pass 2 (lines 249-268), iterating holeStep in row-major order
over the interior pixels. -/
def cleanupPass2 (w h : Nat) (visited : Finset (Nat × Nat))
    (mask : List Nat) : List Nat :=
  (List.range' 2 (h - 4)).foldl (fun m y =>
    (List.range' 2 (w - 4)).foldl (fun m x => holeStep w visited m x y) m) mask

/-- The whole mask pipeline of createCodeBasedClothingMask after decoding,
with the background color estimate passed in: flood fill from the edges,
skin removal, the two cleanup passes, and the final grayscale-encoded
opaque RGBA image (lines 76-296). -/
def buildMaskWith (img : Image) (bg : Nat × Nat × Nat) : Image :=
  let w := img.width
  let h := img.height
  let ff := floodFill w h (fun x y => simMask img bg x y)
  let m1 := maskPhase1 w h ff.2.2
  let m2 := skinPass img m1
  let m3 := cleanupPass1 w h m2
  let m4 := cleanupPass2 w h ff.2.1 m3
  ⟨w, h, m4.map (fun v => ⟨v, v, v, 255⟩)⟩

/-- The mask pipeline with its own background estimate. -/
def buildMask (img : Image) : Image :=
  buildMaskWith img (bgEstimateMask img)

/-- A decode failure of the mask builder. -/
inductive DecodeError where
  | decodeFailed : DecodeError
deriving DecidableEq, Repr

/-- createCodeBasedClothingMask: decode the input (an Option oracle for
the external codec); on failure the catch block rethrows, so the error
propagates and no mask is produced; on success the full pipeline runs. -/
def createCodeBasedClothingMask (dec : Option Image) :
    Except DecodeError Image :=
  match dec with
  | none => Except.error DecodeError.decodeFailed
  | some img => Except.ok (buildMask img)

/- ===== removeWhiteBackground (image-utils.ts 309-469) ===== -/

/-- Light-background test of the standalone background removal (line
343): all channels above 160 and channel spread below 50. -/
def isLightBackground (img : Image) (x y : Nat) : Prop :=
  let p := getPixel img x y
  160 < min p.r (min p.g p.b) ∧ max p.r (max p.g p.b) - min p.r (min p.g p.b) < 50

instance (img : Image) (x y : Nat) : Decidable (isLightBackground img x y) := by
  unfold isLightBackground; infer_instance

/-- The anchor points of img that pass the light-background test of the
standalone background removal. -/
def qualAnchorsRW (img : Image) : List (Nat × Nat) :=
  (anchorPoints img.width img.height).filter
    (fun c => decide (isLightBackground img c.1 c.2))

/-- Per-pixel similarity of the standalone background removal: each
channel delta within the caller threshold, conjoined (as at every call
site of isSimilar) with the light-background test. -/
def simRW (img : Image) (bg : Nat × Nat × Nat) (threshold : Int)
    (x y : Nat) : Bool :=
  let p := getPixel img x y
  decide ((((p.r : Int) - bg.1).natAbs : Int) ≤ threshold ∧
    (((p.g : Int) - bg.2.1).natAbs : Int) ≤ threshold ∧
    (((p.b : Int) - bg.2.2).natAbs : Int) ≤ threshold ∧
    isLightBackground img x y)

/-- Transparent-4-neighbor count of the anti-alias pass, read from the
pre-pass buffer; only called on interior pixels, where the naturals
x - 1 and y - 1 agree with the JS integers. -/
def transparentNbrCount (img : Image) (x y : Nat) : Nat :=
  ([(x - 1, y), (x + 1, y), (x, y - 1), (x, y + 1)]).countP
    (fun c => (getPixel img c.1 c.2).a = 0)

/-- Faded alpha Math.round (a * (1 - t * 0.15)) on naturals:
a * (1 - t * 0.15) = a * (100 - 15 * t) / 100, rounded half-up. -/
def fadeAlpha (a t : Nat) : Nat := nround (a * (100 - 15 * t)) 100

/-- One pixel of the edge anti-aliasing pass (lines 437-455): an interior
pixel with positive alpha and 1 to 3 fully transparent 4-neighbors (read
from the pre-pass copy) has its alpha multiplied by
(1 - neighborCount * 0.15); everything else is untouched. -/
def featherPixel (img : Image) (i : Nat) : RGBA :=
  let p := pixAt img i
  let x := i % img.width
  let y := i / img.width
  if 1 ≤ x ∧ x < img.width - 1 ∧ 1 ≤ y ∧ y < img.height - 1 ∧ 0 < p.a then
    let t := transparentNbrCount img x y
    if 0 < t ∧ t < 4 then ⟨p.r, p.g, p.b, fadeAlpha p.a t⟩ else p
  else p

/-- The whole edge anti-aliasing pass: a fresh copy of the buffer whose
interior border pixels are faded, all neighbor reads going to the
untouched input. -/
def featherEdges (img : Image) : Image :=
  ⟨img.width, img.height,
    (List.range img.data.length).map (fun i => featherPixel img i)⟩

/-- removeWhiteBackground after a successful decode: estimate the
background from the anchors and, when no anchor qualifies, return none,
which stands for the early return of the unmodified input string (line
371) - the flood fill is skipped; otherwise flood fill from the edges
with the rounded mean anchor color, zero the alpha of every painted
pixel, and run the edge anti-aliasing pass. -/
def removeWhiteBackground (img : Image) (threshold : Int) : Option Image :=
  let qual := qualAnchorsRW img
  if qual.length = 0 then none
  else
    let bg : Nat × Nat × Nat :=
      (nround (qual.map (fun c => (getPixel img c.1 c.2).r)).sum qual.length,
       nround (qual.map (fun c => (getPixel img c.1 c.2).g)).sum qual.length,
       nround (qual.map (fun c => (getPixel img c.1 c.2).b)).sum qual.length)
    let ff := floodFill img.width img.height
      (fun x y => simRW img bg threshold x y)
    let cleared : Image := ⟨img.width, img.height,
      (List.range (img.data.length)).map (fun i =>
        let p := pixAt img i
        if (i % img.width, i / img.width) ∈ ff.2.2 then ⟨p.r, p.g, p.b, 0⟩
        else p)⟩
    some (featherEdges cleared)

/- ===== Spec-side definitions quoted from the claims ===== -/

/-- Spec-side standard RGB to HSV conversion: same max-channel branches,
but the hue written with the mathematical floored modulus
(q mod 6 = q - 6 * floor (q / 6)), which lands directly in [0, 360)
with no sign fixup; saturation and value in percent. -/
def hsvSpec (r g b : Nat) : ℚ × ℚ × ℚ :=
  let rn : ℚ := (r : ℚ) / 255
  let gn : ℚ := (g : ℚ) / 255
  let bn : ℚ := (b : ℚ) / 255
  let cmax := max rn (max gn bn)
  let cmin := min rn (min gn bn)
  let delta := cmax - cmin
  let hue : ℚ :=
    if 0 < delta then
      if cmax = rn then
        60 * ((gn - bn) / delta - 6 * (⌊(gn - bn) / delta / 6⌋ : ℚ))
      else if cmax = gn then 60 * ((bn - rn) / delta + 2)
      else 60 * ((rn - gn) / delta + 4)
    else 0
  let s : ℚ := if cmax = 0 then 0 else delta / cmax * 100
  let v : ℚ := cmax * 100
  (hue, s, v)

/-- Spec wording of the skin range: hue in [10, 50], saturation in
[5, 48] percent, value in [50, 96] percent, over the standard HSV. -/
def specSkin (p : RGBA) : Prop :=
  let hsv := hsvSpec p.r p.g p.b
  10 ≤ hsv.1 ∧ hsv.1 ≤ 50 ∧ 5 ≤ hsv.2.1 ∧ hsv.2.1 ≤ 48 ∧
    50 ≤ hsv.2.2 ∧ hsv.2.2 ≤ 96

/-- Spec wording of the shadow range: hue in [5, 55], saturation in
[3, 25] percent, value in [35, 65] percent. -/
def specShadow (p : RGBA) : Prop :=
  let hsv := hsvSpec p.r p.g p.b
  5 ≤ hsv.1 ∧ hsv.1 ≤ 55 ∧ 3 ≤ hsv.2.1 ∧ hsv.2.1 ≤ 25 ∧
    35 ≤ hsv.2.2 ∧ hsv.2.2 ≤ 65

/-- Spec wording of the highlight test: saturation below 12 percent,
value strictly between 82 and 98 percent, R above 200, G above 190,
B above 175, and R - B below 40. -/
def specHighlight (p : RGBA) : Prop :=
  let hsv := hsvSpec p.r p.g p.b
  hsv.2.1 < 12 ∧ 82 < hsv.2.2 ∧ hsv.2.2 < 98 ∧
    200 < p.r ∧ 190 < p.g ∧ 175 < p.b ∧ (p.r : Int) - (p.b : Int) < 40

/-- Spec wording of the green test of the chroma key remover. -/
def specGreen (p : RGBA) : Prop :=
  p.g > 150 ∧ (p.g : Int) > (p.r : Int) + 50 ∧ (p.g : Int) > (p.b : Int) + 50 ∧
    p.r < 150 ∧ p.b < 150

/-- Spec wording of the lime-green test of the chroma key remover. -/
def specLimeGreen (p : RGBA) : Prop :=
  p.g > 200 ∧ p.r < 200 ∧ p.b < 200 ∧
    (p.g : Int) - (p.r : Int) > 30 ∧ (p.g : Int) - (p.b : Int) > 30

instance (p : RGBA) : Decidable (specSkin p) := by
  unfold specSkin; infer_instance

instance (p : RGBA) : Decidable (specShadow p) := by
  unfold specShadow; infer_instance

instance (p : RGBA) : Decidable (specHighlight p) := by
  unfold specHighlight; infer_instance

instance (p : RGBA) : Decidable (specGreen p) := by
  unfold specGreen; infer_instance

instance (p : RGBA) : Decidable (specLimeGreen p) := by
  unfold specLimeGreen; infer_instance

/- ===== Concrete images for counterexamples and witnesses ===== -/

/-- A 1 by 1 image with the single light gray pixel (200, 200, 200, 255);
every anchor qualifies, and the flood fill of the mask builder
double-enqueues the single pixel because the top-row seed loop and the
bottom-row seed loop both push it (height 1 makes row 0 and row
height - 1 the same row). -/
def img1x1gray : Image := ⟨1, 1, [⟨200, 200, 200, 255⟩]⟩

/-- A 1 by 1 all-black image: no anchor passes either light-background
test. -/
def img1x1black : Image := ⟨1, 1, [⟨0, 0, 0, 255⟩]⟩

/-- A 3 by 3 image, all pixels opaque gray except a fully transparent
pixel at (0, 1) and a center pixel (1, 1) with alpha 100: the center
fades to 85 on the first anti-aliasing pass and to 72 on a second one. -/
def img3x3feather : Image :=
  ⟨3, 3,
    [⟨100, 100, 100, 255⟩, ⟨100, 100, 100, 255⟩, ⟨100, 100, 100, 255⟩,
     ⟨100, 100, 100, 0⟩, ⟨100, 100, 100, 100⟩, ⟨100, 100, 100, 255⟩,
     ⟨100, 100, 100, 255⟩, ⟨100, 100, 100, 255⟩, ⟨100, 100, 100, 255⟩]⟩

/- ===== Helper lemmas ===== -/

/-- Natural half-up rounding agrees with the rational Math.round. -/
theorem nround_eq_jsRound (a b : Nat) (hb : 0 < b) :
    (nround a b : Int) = jsRound ((a : ℚ) / (b : ℚ)) := by
  unfold nround jsRound
  have hb0 : (b : ℚ) ≠ 0 := Nat.cast_ne_zero.mpr hb.ne'
  have h1 : (a : ℚ) / (b : ℚ) + 1 / 2 =
      ((2 * a + b : ℕ) : ℚ) / ((2 * b : ℕ) : ℚ) := by
    push_cast
    field_simp
    ring
  rw [h1, Rat.floor_natCast_div_natCast]
  exact (Int.natCast_div _ _).symm ▸ rfl

/-- Integer half-up rounding agrees with the rational Math.round. -/
theorem iround_eq_jsRound (n : Int) (d : Nat) (hd : 0 < d) :
    iround n (d : Int) = jsRound ((n : ℚ) / (d : ℚ)) := by
  unfold iround jsRound
  have hd0 : (d : ℚ) ≠ 0 := Nat.cast_ne_zero.mpr hd.ne'
  have h1 : (n : ℚ) / (d : ℚ) + 1 / 2 =
      ((2 * n + d : ℤ) : ℚ) / ((2 * d : ℕ) : ℚ) := by
    push_cast
    field_simp
    ring
  rw [h1, Rat.floor_intCast_div_natCast]
  push_cast
  ring_nf

/-- Lookup of an index map over List.range at an in-range index. -/
theorem getD_map_range {α : Type} (n i : Nat) (f : Nat → α) (d : α)
    (hi : i < n) : (((List.range n).map f).getD i d) = f i := by
  rw [List.getD_eq_getElem _ _ (by simpa using hi)]
  simp

/-- Lookup of an index map over List.range past the end. -/
theorem getD_map_range_ge {α : Type} (n i : Nat) (f : Nat → α) (d : α)
    (hi : n ≤ i) : (((List.range n).map f).getD i d) = d := by
  apply List.getD_eq_default
  simpa using hi

/-- The three-zone alpha never exceeds the original alpha. -/
theorem applyMaskAlpha_le (t : Int) (mb ma oa : Nat) :
    applyMaskAlpha t mb ma oa ≤ oa := by
  unfold applyMaskAlpha
  dsimp only
  split_ifs with h1 h2
  · exact le_refl oa
  · exact Nat.zero_le oa
  · calc (min (oa : Int) _).toNat ≤ ((oa : Int)).toNat :=
          Int.toNat_le_toNat (min_le_left _ _)
    _ = oa := Int.toNat_natCast oa

/-- The code green tests coincide with the spec wording. -/
theorem green_iff (p : RGBA) :
    (isGreen p ∨ isLimeGreen p) ↔ (specGreen p ∨ specLimeGreen p) := by
  unfold isGreen isLimeGreen specGreen specLimeGreen
  omega

/- ===== Claim theorems ===== -/

/-- C8: for every pixel of the decoded buffer, removeGreenBackground sets
the alpha to 0 exactly by the isGreen-or-isLimeGreen rule of the spec
(every other pixel keeps its alpha, and out-of-range lookups are the
zero default on both sides); moreover a (0, 255, 0) pixel always comes
out with alpha 0 and a (255, 0, 0) pixel is untouched. -/
theorem removeGreen_spec :
    (∀ (data : List RGBA) (i : Nat),
      ((removeGreenPixels data).getD i zeroPx).a =
        (if specGreen (data.getD i zeroPx) ∨ specLimeGreen (data.getD i zeroPx)
          then 0 else (data.getD i zeroPx).a)) ∧
    (∀ a0 : Nat, (removeGreenPixel ⟨0, 255, 0, a0⟩).a = 0) ∧
    (∀ a0 : Nat, removeGreenPixel ⟨255, 0, 0, a0⟩ = ⟨255, 0, 0, a0⟩) := by
  refine ⟨fun data i => ?_, fun a0 => ?_, fun a0 => ?_⟩
  · unfold removeGreenPixels
    by_cases hi : i < data.length
    · rw [List.getD_eq_getElem _ _ (by simpa using hi),
        List.getD_eq_getElem _ _ hi, List.getElem_map]
      unfold removeGreenPixel
      by_cases hc : isGreen data[i] ∨ isLimeGreen data[i]
      · rw [if_pos hc, if_pos ((green_iff _).mp hc)]
      · rw [if_neg hc, if_neg (fun hs => hc ((green_iff _).mpr hs))]
    · rw [List.getD_eq_default _ _ (by simpa using Nat.le_of_not_lt hi),
        List.getD_eq_default _ _ (Nat.le_of_not_lt hi)]
      norm_num [zeroPx, specGreen, specLimeGreen]
  · unfold removeGreenPixel
    rw [if_pos (Or.inl (by norm_num [isGreen]))]
  · unfold removeGreenPixel
    rw [if_neg]
    rintro (h | h)
    · exact absurd h.1 (by norm_num)
    · exact absurd h.1 (by norm_num)

/-- C9: removeGreenBackground ignores its tolerance parameter - for any
two tolerances the result is identical on every input and decode
outcome, because the green thresholds are fixed constants. -/
theorem removeGreen_tolerance_irrelevant (base64Data : String)
    (dec : Option Image) (t1 t2 : Int) :
    removeGreenBackground base64Data dec t1 =
      removeGreenBackground base64Data dec t2 := by
  cases dec <;> rfl

/-- C10: applyMaskToImage never increases opacity - at every index the
output alpha is at most the alpha of the decoded original (out-of-range
lookups default to the zero pixel on both sides). -/
theorem applyMask_never_increases_alpha (threshold : Int)
    (orig mask : List RGBA) (i : Nat) :
    ((applyMaskCore threshold orig mask).getD i zeroPx).a ≤
      (orig.getD i zeroPx).a := by
  unfold applyMaskCore
  by_cases hi : i < orig.length
  · rw [getD_map_range _ _ _ _ hi]
    exact applyMaskAlpha_le _ _ _ _
  · rw [getD_map_range_ge _ _ _ _ (Nat.le_of_not_lt hi)]
    exact Nat.zero_le _

/-- C5: when decoding of either the original or the mask fails,
applyMaskToImage returns the original base64 string unmodified (the
catch-all branch; the model has no error outcome, mirroring that the
source never rethrows). -/
theorem applyMask_decode_failure (originalBase64 : String) (threshold : Int)
    (decOrig decMask : Option (List RGBA))
    (h : decOrig = none ∨ decMask = none) :
    applyMaskToImage originalBase64 threshold decOrig decMask =
      Sum.inl originalBase64 := by
  rcases h with h | h <;> subst h
  · cases decMask <;> rfl
  · cases decOrig <;> rfl

/-- Witness for C5 at a concrete input: the mask fails to decode and the
original string comes back. -/
theorem applyMask_decode_failure_witness :
    applyMaskToImage "orig" 128 (some [⟨1, 2, 3, 4⟩]) none =
      Sum.inl "orig" :=
  applyMask_decode_failure "orig" 128 (some [⟨1, 2, 3, 4⟩]) none (Or.inr rfl)

/-- C6: when the input bytes fail to decode, createCodeBasedClothingMask
propagates the decode error to its caller and produces no mask at all
(the error value carries no partial output). -/
theorem createMask_decode_failure :
    createCodeBasedClothingMask none =
      Except.error DecodeError.decodeFailed := rfl

/-- Counterexample for C3: on an all-black image no anchor point
qualifies, and removeWhiteBackground does NOT fall back to the default
background color and flood fill - it returns none, the model of the
early return of the unmodified input string, so the claimed
continue-with-245 behavior holds only in the mask-building path. -/
theorem removeWhite_no_fallback_cex :
    qualAnchorsRW img1x1black = [] ∧
      removeWhiteBackground img1x1black 30 = none := by
  constructor <;> rfl

/-- C3 amended: with zero qualifying anchors the mask-building path falls
back to the default background color 245 and continues with the flood
fill (the pipeline still produces a mask, built with that default),
while removeWhiteBackground instead returns its input unchanged,
skipping the flood fill entirely. -/
theorem bg_fallback_amended :
    (∀ img : Image, qualAnchorsMask img = [] →
      bgEstimateMask img = (245, 245, 245) ∧
        createCodeBasedClothingMask (some img) =
          Except.ok (buildMaskWith img (245, 245, 245))) ∧
    (∀ (img : Image) (threshold : Int), qualAnchorsRW img = [] →
      removeWhiteBackground img threshold = none) := by
  constructor
  · intro img h
    have hbg : bgEstimateMask img = (245, 245, 245) := by
      unfold bgEstimateMask
      rw [h]
      rfl
    refine ⟨hbg, ?_⟩
    show Except.ok (buildMask img) = _
    unfold buildMask
    rw [hbg]
  · intro img threshold h
    unfold removeWhiteBackground
    rw [h]
    rfl

/-- Witness for C3 amended at the concrete all-black image. -/
theorem bg_fallback_amended_witness :
    (bgEstimateMask img1x1black = (245, 245, 245) ∧
      createCodeBasedClothingMask (some img1x1black) =
        Except.ok (buildMaskWith img1x1black (245, 245, 245))) ∧
    removeWhiteBackground img1x1black 7 = none :=
  ⟨bg_fallback_amended.1 img1x1black (by decide),
    bg_fallback_amended.2 img1x1black 7 (by decide)⟩

/-- Row-major flat index bound. -/
theorem idx_lt {w h nx ny : Nat} (hx : nx < w) (hy : ny < h) :
    ny * w + nx < w * h := by
  calc ny * w + nx < ny * w + w := Nat.add_lt_add_left hx _
  _ = (ny + 1) * w := by ring
  _ ≤ h * w := Nat.mul_le_mul_right w hy
  _ = w * h := Nat.mul_comm h w

/-- On an image with no fully transparent pixel (and a well-formed
buffer), every interior pixel counts zero transparent 4-neighbors. -/
theorem transparentNbrCount_zero (img : Image) (x y : Nat)
    (hlen : img.data.length = img.width * img.height)
    (hall : ∀ p ∈ img.data, p.a ≠ 0)
    (hx1 : 1 ≤ x) (hx2 : x < img.width - 1)
    (hy1 : 1 ≤ y) (hy2 : y < img.height - 1) :
    transparentNbrCount img x y = 0 := by
  unfold transparentNbrCount
  rw [List.countP_eq_zero]
  intro c hc
  have hcb : c.1 < img.width ∧ c.2 < img.height := by
    simp only [List.mem_cons, List.not_mem_nil, or_false] at hc
    rcases hc with h | h | h | h <;> subst h <;> constructor <;> simp <;> omega
  have hidx : c.2 * img.width + c.1 < img.data.length := by
    rw [hlen]
    exact idx_lt hcb.1 hcb.2
  have hmem : getPixel img c.1 c.2 ∈ img.data := by
    unfold getPixel pixAt
    rw [List.getD_eq_getElem _ _ hidx]
    exact List.getElem_mem _
  simpa using hall _ hmem

/-- The faded alpha of a positive alpha stays positive: the fade factor
is at least 0.55, so rounding cannot reach zero. -/
theorem fadeAlpha_pos (a t : Nat) (ha : 0 < a) (ht : t ≤ 3) :
    0 < fadeAlpha a t := by
  unfold fadeAlpha nround
  have h55 : 55 ≤ 100 - 15 * t := by omega
  have hm : 55 ≤ a * (100 - 15 * t) :=
    le_trans h55 (Nat.le_mul_of_pos_left _ ha)
  exact Nat.div_pos (by omega) (by norm_num)

/-- The anti-alias pass on an image with no fully transparent pixel
changes nothing. -/
theorem featherEdges_noop (img : Image)
    (hlen : img.data.length = img.width * img.height)
    (hall : ∀ p ∈ img.data, p.a ≠ 0) : featherEdges img = img := by
  have hdata : (List.range img.data.length).map (fun i => featherPixel img i) =
      img.data := by
    apply List.ext_getElem
    · simp
    · intro i h1 h2
      simp only [List.getElem_map, List.getElem_range]
      have hp : pixAt img i = img.data[i] := List.getD_eq_getElem _ _ h2
      unfold featherPixel
      dsimp only
      split_ifs with hint hcnt
      · exfalso
        have ht0 : transparentNbrCount img (i % img.width) (i / img.width) = 0 :=
          transparentNbrCount_zero img _ _ hlen hall hint.1 hint.2.1
            hint.2.2.1 hint.2.2.2.1
        omega
      · exact hp
      · exact hp
  show Image.mk img.width img.height _ = img
  rw [hdata]

/-- The anti-alias pass never zeroes a positive alpha, so the set of
fully transparent pixels is unchanged by a run. -/
theorem featherEdges_alpha_pos (img : Image) (i : Nat)
    (ha : 0 < (pixAt img i).a) : 0 < (pixAt (featherEdges img) i).a := by
  have hi : i < img.data.length := by
    by_contra hlt
    have : pixAt img i = zeroPx :=
      List.getD_eq_default _ _ (Nat.le_of_not_lt hlt)
    rw [this] at ha
    exact absurd ha (by norm_num [zeroPx])
  have hfe : pixAt (featherEdges img) i = featherPixel img i := by
    unfold featherEdges pixAt
    exact getD_map_range _ _ _ _ hi
  rw [hfe]
  unfold featherPixel
  dsimp only
  split_ifs with hint hcnt
  · exact fadeAlpha_pos _ _ ha (by omega)
  · exact ha
  · exact ha

/-- Counterexample for C4: the anti-aliasing pass is NOT idempotent.  On
the concrete 3 by 3 image the center pixel (alpha 100, one transparent
neighbor) fades to 85 on the first run and to 72 on the second, so
running the pass on its own output compounds the fade. -/
theorem featherEdges_not_idempotent_cex :
    featherEdges (featherEdges img3x3feather) ≠ featherEdges img3x3feather := by
  decide

/-- C4 amended: what actually holds of the pass is that it reads neighbor
transparency from the pre-pass copy (no cascades inside one run), never
creates a new fully transparent pixel, and is a no-op - hence idempotent
- on well-formed images that contain no fully transparent pixel; on
images with transparent neighbors a second run multiplies the faded
alphas again. -/
theorem featherEdges_amended :
    (∀ img : Image, img.data.length = img.width * img.height →
      (∀ p ∈ img.data, p.a ≠ 0) → featherEdges img = img) ∧
    (∀ (img : Image) (i : Nat),
      0 < (pixAt img i).a → 0 < (pixAt (featherEdges img) i).a) :=
  ⟨featherEdges_noop, featherEdges_alpha_pos⟩

/-- Witness for C4 amended: a concrete fully opaque 2 by 2 image is left
byte-identical, and the faded center of the 3 by 3 counterexample image
keeps a positive alpha. -/
theorem featherEdges_amended_witness :
    featherEdges ⟨2, 2, [⟨1, 2, 3, 9⟩, ⟨4, 5, 6, 9⟩, ⟨7, 8, 9, 9⟩,
        ⟨3, 2, 1, 9⟩]⟩ =
      ⟨2, 2, [⟨1, 2, 3, 9⟩, ⟨4, 5, 6, 9⟩, ⟨7, 8, 9, 9⟩, ⟨3, 2, 1, 9⟩]⟩ ∧
    0 < (pixAt (featherEdges img3x3feather) 4).a :=
  ⟨featherEdges_amended.1 _ (by decide) (by decide),
    featherEdges_amended.2 img3x3feather 4 (by decide)⟩

/-- The per-pixel alpha of the source loop equals the spec-side formula
quoted from the claim. -/
theorem applyMaskAlpha_eq_spec (t : Int) (mb ma oa : Nat) :
    applyMaskAlpha t mb ma oa = specZoneAlpha t mb ma oa := by
  unfold applyMaskAlpha specZoneAlpha effectiveBrightness
  dsimp only
  have hbr : jsRound ((mb / 255 : ℚ) * (ma / 255 : ℚ) * 255) =
      ((nround (mb * ma) 255 : Nat) : Int) := by
    rw [nround_eq_jsRound _ _ (by norm_num)]
    unfold jsRound
    congr 1
    push_cast
    field_simp
    ring
  rw [hbr]
  set eb : Int := ((nround (mb * ma) 255 : Nat) : Int) with heb
  by_cases h1 : eb > t + 30
  · rw [if_pos h1, if_pos h1]
  · rw [if_neg h1, if_neg h1]
    by_cases h2 : eb < t - 30
    · rw [if_pos h2, if_pos h2]
    · rw [if_neg h2, if_neg h2]
      have hedge : iround ((eb - (t - 30)) * 255) 60 =
          jsRound ((((eb : ℚ) - ((t : ℚ) - 30)) / 60) * 255) := by
        rw [show (60 : Int) = ((60 : ℕ) : Int) from rfl,
          iround_eq_jsRound _ 60 (by norm_num)]
        unfold jsRound
        congr 1
        push_cast
        ring
      rw [hedge]

/-- C1: for every in-range pixel, applyMaskToImage leaves R, G and B
untouched and produces exactly the three-zone alpha of the spec: keep
the original alpha when the effective brightness exceeds threshold + 30,
zero it below threshold - 30, and otherwise clamp the linear edge ramp
by the original alpha. -/
theorem applyMask_three_zones (threshold : Int) (orig mask : List RGBA)
    (i : Nat) (hi : i < orig.length) :
    (applyMaskCore threshold orig mask).getD i zeroPx =
      ⟨(orig.getD i zeroPx).r, (orig.getD i zeroPx).g, (orig.getD i zeroPx).b,
        specZoneAlpha threshold (mask.getD i zeroPx).r (mask.getD i zeroPx).a
          (orig.getD i zeroPx).a⟩ := by
  unfold applyMaskCore
  rw [getD_map_range _ _ _ _ hi]
  dsimp only
  rw [applyMaskAlpha_eq_spec]

/-- Witness for C1 at a concrete pixel in each of the three zones would
need three images; one edge-zone pixel exercises every hypothesis: mask
value 130 and alpha 200 against an original alpha 250 at index 0. -/
theorem applyMask_three_zones_witness :
    (applyMaskCore 128 [⟨10, 20, 30, 250⟩] [⟨130, 130, 130, 200⟩]).getD 0 zeroPx =
      ⟨10, 20, 30,
        specZoneAlpha 128 130 200 250⟩ :=
  applyMask_three_zones 128 [⟨10, 20, 30, 250⟩] [⟨130, 130, 130, 200⟩] 0
    (by decide)

/-- For a hue ratio x in [-1, 1] the JS remainder-then-wrap computation
equals the mathematical floored modulus: the truncated remainder by 6 is
the identity there, and the +360 fixup is exactly the floored modulus. -/
theorem hue_wrap_eq (x : ℚ) (hx1 : -1 ≤ x) (hx2 : x ≤ 1) :
    (if 60 * jsMod x 6 < 0 then 60 * jsMod x 6 + 360 else 60 * jsMod x 6) =
      60 * (x - 6 * ((⌊x / 6⌋ : Int) : ℚ)) := by
  have htr : ratTrunc (x / 6) = 0 := by
    unfold ratTrunc
    split_ifs with h
    · refine Int.floor_eq_zero_iff.mpr ⟨h, ?_⟩
      linarith
    · refine Int.ceil_eq_zero_iff.mpr ⟨?_, ?_⟩
      · linarith
      · linarith [not_le.mp h]
  have hmod : jsMod x 6 = x := by
    unfold jsMod
    rw [htr]
    push_cast
    ring
  rw [hmod]
  by_cases hx : x < 0
  · have hfl : ⌊x / 6⌋ = -1 := by
      rw [Int.floor_eq_iff]
      constructor
      · push_cast
        linarith
      · push_cast
        linarith
    rw [if_pos (by linarith : 60 * x < 0), hfl]
    push_cast
    ring
  · have hfl : ⌊x / 6⌋ = 0 := by
      refine Int.floor_eq_zero_iff.mpr ⟨by linarith [not_lt.mp hx], by linarith⟩
    rw [if_neg (by push_neg; linarith [not_lt.mp hx]), hfl]
    push_cast
    ring

/-- The source HSV conversion equals the spec-side standard conversion:
saturation and value are the same formula, and the hue agrees by the
floored-modulus argument (every channel ratio lies within one period,
and the +360 fixup of the warm branch is the floored modulus). -/
theorem hsvCode_eq_hsvSpec (r g b : Nat) : hsvCode r g b = hsvSpec r g b := by
  unfold hsvCode hsvSpec
  dsimp only
  set rn : ℚ := (r : ℚ) / 255 with hrn
  set gn : ℚ := (g : ℚ) / 255 with hgn
  set bn : ℚ := (b : ℚ) / 255 with hbn
  set cmax : ℚ := max rn (max gn bn) with hcmax
  set cmin : ℚ := min rn (min gn bn) with hcmin
  have hrle : rn ≤ cmax := le_max_left _ _
  have hgle : gn ≤ cmax := le_trans (le_max_left gn bn) (le_max_right rn _)
  have hble : bn ≤ cmax := le_trans (le_max_right gn bn) (le_max_right rn _)
  have hrge : cmin ≤ rn := min_le_left _ _
  have hgge : cmin ≤ gn := le_trans (min_le_right rn (min gn bn)) (min_le_left gn bn)
  have hbge : cmin ≤ bn := le_trans (min_le_right rn (min gn bn)) (min_le_right gn bn)
  refine Prod.ext ?_ rfl
  dsimp only
  by_cases hd : 0 < cmax - cmin
  · by_cases hr : cmax = rn
    · simp only [if_pos hd, if_pos hr]
      apply hue_wrap_eq
      · rw [le_div_iff₀ hd]
        linarith
      · rw [div_le_one hd]
        linarith
    · have hx2 : -1 ≤ (bn - rn) / (cmax - cmin) := by
        rw [le_div_iff₀ hd]
        linarith
      have hx3 : -1 ≤ (rn - gn) / (cmax - cmin) := by
        rw [le_div_iff₀ hd]
        linarith
      by_cases hg : cmax = gn
      · simp only [if_pos hd, if_neg hr, if_pos hg]
        rw [if_neg (by push_neg; linarith)]
      · simp only [if_pos hd, if_neg hr, if_neg hg]
        rw [if_neg (by push_neg; linarith)]
  · simp only [if_neg hd]
    rw [if_neg (by norm_num)]

/-- The phase 2 decision of the source coincides with the disjunction of
the three spec range predicates over the standard HSV conversion. -/
theorem skinFlag_iff_spec (p : RGBA) :
    skinFlag p ↔ specSkin p ∨ specShadow p ∨ specHighlight p := by
  unfold skinFlag isMannequinSkin isMannequinShadow isMannequinHighlight
    specSkin specShadow specHighlight
  rw [hsvCode_eq_hsvSpec p.r p.g p.b]
  generalize hsvSpec p.r p.g p.b = t
  obtain ⟨hu, s, v⟩ := t
  dsimp only
  simp only [and_assoc]

/-- C2: for every in-range pixel not already removed as background, the
skin classifier sets the mask to 0 exactly when one of the three spec
HSV range conditions holds of the pixel. -/
theorem skinPass_spec (img : Image) (mask : List Nat) (i : Nat)
    (hi : i < img.width * img.height) (hm : mask.getD i 0 ≠ 0) :
    ((skinPass img mask).getD i 0 = 0 ↔
      specSkin (pixAt img i) ∨ specShadow (pixAt img i) ∨
        specHighlight (pixAt img i)) := by
  unfold skinPass
  rw [getD_map_range _ _ _ _ hi]
  dsimp only
  rw [if_neg hm]
  rw [← skinFlag_iff_spec]
  by_cases hs : skinFlag (pixAt img i)
  · rw [if_pos hs]
    exact ⟨fun _ => hs, fun _ => rfl⟩
  · rw [if_neg hs]
    exact ⟨fun h => absurd h hm, fun h => absurd h hs⟩

/-- Witness for C2 at a concrete pixel and mask: a mid-brown pixel whose
saturation 50 exceeds every range, so both sides of the equivalence are
false. -/
theorem skinPass_spec_witness :
    ((skinPass ⟨1, 1, [⟨200, 150, 100, 255⟩]⟩ [255]).getD 0 0 = 0 ↔
      specSkin (pixAt ⟨1, 1, [⟨200, 150, 100, 255⟩]⟩ 0) ∨
        specShadow (pixAt ⟨1, 1, [⟨200, 150, 100, 255⟩]⟩ 0) ∨
        specHighlight (pixAt ⟨1, 1, [⟨200, 150, 100, 255⟩]⟩ 0)) :=
  skinPass_spec ⟨1, 1, [⟨200, 150, 100, 255⟩]⟩ [255] 0 (by decide) (by decide)

/-- The four neighbor candidates are pairwise distinct positions, so the
neighbor list has no duplicates. -/
theorem nbrs_nodup (w h x y : Nat) : (nbrs w h x y).Nodup := by
  unfold nbrs
  apply List.Nodup.filterMap
  · intro a a' q hq hq'
    have ha : 0 ≤ a.1 ∧ a.1 < (w : Int) ∧ 0 ≤ a.2 ∧ a.2 < (h : Int) ∧
        q = (a.1.toNat, a.2.toNat) := by
      by_cases hc : 0 ≤ a.1 ∧ a.1 < (w : Int) ∧ 0 ≤ a.2 ∧ a.2 < (h : Int)
      · rw [if_pos hc] at hq
        exact ⟨hc.1, hc.2.1, hc.2.2.1, hc.2.2.2, (Option.mem_some_iff.mp hq).symm⟩
      · rw [if_neg hc] at hq
        exact absurd hq (by simp)
    have ha' : 0 ≤ a'.1 ∧ a'.1 < (w : Int) ∧ 0 ≤ a'.2 ∧ a'.2 < (h : Int) ∧
        q = (a'.1.toNat, a'.2.toNat) := by
      by_cases hc : 0 ≤ a'.1 ∧ a'.1 < (w : Int) ∧ 0 ≤ a'.2 ∧ a'.2 < (h : Int)
      · rw [if_pos hc] at hq'
        exact ⟨hc.1, hc.2.1, hc.2.2.1, hc.2.2.2, (Option.mem_some_iff.mp hq').symm⟩
      · rw [if_neg hc] at hq'
        exact absurd hq' (by simp)
    have h1 : a.1 = a'.1 := by
      have e1 : a.1.toNat = a'.1.toNat := by
        rw [ha.2.2.2.2] at ha'
        exact congrArg Prod.fst ha'.2.2.2.2
      omega
    have h2 : a.2 = a'.2 := by
      have e2 : a.2.toNat = a'.2.toNat := by
        rw [ha.2.2.2.2] at ha'
        exact congrArg Prod.snd ha'.2.2.2.2
      omega
    exact Prod.ext h1 h2
  · simp [List.nodup_cons, Prod.ext_iff]
    omega

/-- Every produced neighbor is inside the grid. -/
theorem nbrs_mem_grid (w h x y : Nat) (p : Nat × Nat)
    (hp : p ∈ nbrs w h x y) : p.1 < w ∧ p.2 < h := by
  unfold nbrs at hp
  rcases List.mem_filterMap.mp hp with ⟨a, _, ha⟩
  by_cases hc : 0 ≤ a.1 ∧ a.1 < (w : Int) ∧ 0 ≤ a.2 ∧ a.2 < (h : Int)
  · rw [if_pos hc] at ha
    have hpa : p = (a.1.toNat, a.2.toNat) := (Option.some_inj.mp ha).symm
    subst hpa
    constructor <;> simp <;> omega
  · rw [if_neg hc] at ha
    exact absurd ha (by simp)

/-- Membership in a conditional singleton push. -/
theorem mem_ite_singleton {c : Prop} [Decidable c] {p q : Nat × Nat}
    (hp : p ∈ (if c then [q] else ([] : List (Nat × Nat)))) : p = q ∧ c := by
  split_ifs at hp with hc
  · exact ⟨List.mem_singleton.mp hp, hc⟩
  · exact absurd hp (List.not_mem_nil p)

/-- Every top-or-bottom seed lies on the sampled column list and on row 0
or row h - 1. -/
theorem seedTB_mem (h : Nat) (sim : Nat → Nat → Bool) (xs : List Nat)
    (p : Nat × Nat) (hp : p ∈ seedTB h sim xs) :
    p.1 ∈ xs ∧ (p.2 = 0 ∨ p.2 = h - 1) := by
  induction xs with
  | nil => simp [seedTB] at hp
  | cons x xs ih =>
    unfold seedTB at hp
    rw [List.append_assoc, List.mem_append, List.mem_append] at hp
    rcases hp with h1 | h1 | h1
    · obtain ⟨hpq, -⟩ := mem_ite_singleton h1
      subst hpq
      exact ⟨List.mem_cons_self _ _, Or.inl rfl⟩
    · obtain ⟨hpq, -⟩ := mem_ite_singleton h1
      subst hpq
      exact ⟨List.mem_cons_self _ _, Or.inr rfl⟩
    · obtain ⟨hx, hy⟩ := ih h1
      exact ⟨List.mem_cons_of_mem _ hx, hy⟩

/-- With at least two rows the top-and-bottom seed list over distinct
columns has no duplicates. -/
theorem seedTB_nodup (h : Nat) (sim : Nat → Nat → Bool) (hh : 2 ≤ h) :
    ∀ xs : List Nat, xs.Nodup → (seedTB h sim xs).Nodup := by
  intro xs
  induction xs with
  | nil =>
    intro _
    simp [seedTB]
  | cons x xs ih =>
    intro hnd
    rw [List.nodup_cons] at hnd
    unfold seedTB
    apply List.Nodup.append
    · apply List.Nodup.append
      · split_ifs <;> simp
      · split_ifs <;> simp
      · intro q hq hq'
        obtain ⟨e1, -⟩ := mem_ite_singleton hq
        obtain ⟨e2, -⟩ := mem_ite_singleton hq'
        rw [e1] at e2
        have : h - 1 = 0 := (Prod.mk.injEq _ _ _ _).mp e2.symm |>.2
        omega
    · exact ih hnd.2
    · intro q hq hq'
      have hx1 : q.1 = x := by
        rw [List.mem_append] at hq
        rcases hq with hq | hq <;>
          · obtain ⟨e, -⟩ := mem_ite_singleton hq
            rw [e]
      exact hnd.1 (hx1 ▸ (seedTB_mem h sim xs q hq').1)

/-- A guarded seed push keeps the pushed-so-far list duplicate-free. -/
theorem seedNew_append_nodup (acc : List (Nat × Nat)) (s : Bool)
    (q : Nat × Nat) (h : acc.Nodup) : (acc ++ seedNew acc s q).Nodup := by
  unfold seedNew
  split_ifs with hc
  · apply List.Nodup.append h (List.nodup_singleton q)
    intro a ha ha'
    rw [List.mem_singleton] at ha'
    subst ha'
    exact hc.1 ha
  · simpa using h

/-- The left-and-right seed loop never pushes a duplicate: the whole
pushed list stays duplicate-free. -/
theorem seedLR_nodup (w : Nat) (sim : Nat → Nat → Bool) :
    ∀ (ys : List Nat) (acc : List (Nat × Nat)), acc.Nodup →
      (acc ++ seedLR w sim acc ys).Nodup := by
  intro ys
  induction ys with
  | nil =>
    intro acc h
    simpa [seedLR] using h
  | cons y ys ih =>
    intro acc h
    unfold seedLR
    dsimp only
    have h1 : (acc ++ seedNew acc (sim 0 y) (0, y)).Nodup :=
      seedNew_append_nodup acc _ _ h
    have h2 : ((acc ++ seedNew acc (sim 0 y) (0, y)) ++
        seedNew (acc ++ seedNew acc (sim 0 y) (0, y)) (sim (w - 1) y)
          (w - 1, y)).Nodup :=
      seedNew_append_nodup _ _ _ h1
    have h3 := ih _ h2
    simpa [List.append_assoc] using h3

/-- Invariant of the BFS queue scan: if the enqueue list so far has no
duplicates and the visited set is exactly the set of enqueued pixels,
and the fuel dominates the pending length plus the unvisited part of the
grid, then at termination the full enqueue list is duplicate-free, the
visited set is exactly its set, and the painted set is also exactly its
set (every enqueued pixel gets dequeued and painted). -/
theorem bfsLoop_invariant (w h : Nat) (sim : Nat → Nat → Bool) :
    ∀ (fuel : Nat) (todo done : List (Nat × Nat))
      (vis rem : Finset (Nat × Nat)),
      (done.reverse ++ todo).Nodup →
      (done.reverse ++ todo).toFinset = vis →
      rem = done.toFinset →
      todo.length + ((Finset.range w ×ˢ Finset.range h) \ vis).card ≤ fuel →
      (bfsLoop w h sim fuel todo done vis rem).1.Nodup ∧
        (bfsLoop w h sim fuel todo done vis rem).1.toFinset =
          (bfsLoop w h sim fuel todo done vis rem).2.1 ∧
        (bfsLoop w h sim fuel todo done vis rem).2.2 =
          (bfsLoop w h sim fuel todo done vis rem).1.toFinset := by
  intro fuel
  induction fuel with
  | zero =>
    intro todo done vis rem hnd hvis hrem hfuel
    have htodo : todo = [] := List.length_eq_zero.mp (by omega)
    subst htodo
    unfold bfsLoop
    refine ⟨by simpa using hnd, by simpa using hvis, ?_⟩
    rw [hrem]
    simp
  | succ fuel ih =>
    intro todo done vis rem hnd hvis hrem hfuel
    cases todo with
    | nil =>
      unfold bfsLoop
      refine ⟨by simpa using hnd, by simpa using hvis, ?_⟩
      rw [hrem]
      simp
    | cons p rest =>
      unfold bfsLoop
      dsimp only
      set fresh := (nbrs w h p.1 p.2).filter
        (fun q => decide (q ∉ vis) && sim q.1 q.2) with hfresh
      have hfreshnd : fresh.Nodup :=
        List.Nodup.filter _ (nbrs_nodup w h p.1 p.2)
      have hfresh_not_vis : ∀ q ∈ fresh, q ∉ vis := by
        intro q hq
        have h2 := (List.mem_filter.mp hq).2
        rw [Bool.and_eq_true, decide_eq_true_eq] at h2
        exact h2.1
      have hfresh_grid : ∀ q ∈ fresh,
          q ∈ (Finset.range w ×ˢ Finset.range h) := by
        intro q hq
        have h1 := (List.mem_filter.mp hq).1
        obtain ⟨hqw, hqh⟩ := nbrs_mem_grid w h p.1 p.2 q h1
        rw [Finset.mem_product, Finset.mem_range, Finset.mem_range]
        exact ⟨hqw, hqh⟩
      apply ih
      · have hA : ((done.reverse ++ p :: rest) ++ fresh).Nodup := by
          apply List.Nodup.append hnd hfreshnd
          intro a ha ha'
          exact hfresh_not_vis a ha' (hvis ▸ List.mem_toFinset.mpr ha)
        have heq : (p :: done).reverse ++ (rest ++ fresh) =
            (done.reverse ++ p :: rest) ++ fresh := by
          simp [List.reverse_cons, List.append_assoc]
        rw [heq]
        exact hA
      · have heq : (p :: done).reverse ++ (rest ++ fresh) =
            (done.reverse ++ p :: rest) ++ fresh := by
          simp [List.reverse_cons, List.append_assoc]
        rw [heq, List.toFinset_append, hvis]
      · rw [hrem, List.toFinset_cons]
      · have hFsub : fresh.toFinset ⊆
            (Finset.range w ×ˢ Finset.range h) \ vis := by
          intro q hq
          rw [List.mem_toFinset] at hq
          rw [Finset.mem_sdiff]
          exact ⟨hfresh_grid q hq, hfresh_not_vis q hq⟩
        have hset : (Finset.range w ×ˢ Finset.range h) \ (vis ∪ fresh.toFinset) =
            ((Finset.range w ×ˢ Finset.range h) \ vis) \ fresh.toFinset := by
          ext q
          simp only [Finset.mem_sdiff, Finset.mem_union]
          tauto
        have hcard : (((Finset.range w ×ˢ Finset.range h) \ vis) \
            fresh.toFinset).card =
            ((Finset.range w ×ˢ Finset.range h) \ vis).card -
              fresh.toFinset.card := Finset.card_sdiff hFsub
        have hle : fresh.toFinset.card ≤
            ((Finset.range w ×ˢ Finset.range h) \ vis).card :=
          Finset.card_le_card hFsub
        have hflen : fresh.toFinset.card = fresh.length :=
          List.toFinset_card_of_nodup hfreshnd
        rw [List.length_append, hset, hcard]
        rw [List.length_cons] at hfuel
        omega

/-- C7 amended: for every similarity test and every grid at least two
rows tall, the flood fill enqueues each pixel at most once, the visited
set is exactly the set of enqueued pixels, every enqueued pixel is
dequeued and painted, and the number of enqueued coordinate pairs equals
the number of distinct painted background pixels.  (With a single row
the two edge seed loops can push the same pixel twice, so the height
hypothesis is necessary.) -/
theorem floodFill_enqueues_once (w h : Nat) (sim : Nat → Nat → Bool)
    (hh : 2 ≤ h) :
    (floodFill w h sim).1.Nodup ∧
      (floodFill w h sim).1.toFinset = (floodFill w h sim).2.1 ∧
      (floodFill w h sim).2.2 = (floodFill w h sim).1.toFinset ∧
      (floodFill w h sim).1.length = (floodFill w h sim).2.2.card := by
  unfold floodFill
  dsimp only
  set tb := seedTB h sim (List.range w) with htb
  set seeds := tb ++ seedLR w sim tb (List.range h) with hseeds
  have hsnd : seeds.Nodup :=
    seedLR_nodup w sim (List.range h) tb
      (seedTB_nodup h sim hh _ (List.nodup_range w))
  have hfb : seeds.length +
      ((Finset.range w ×ˢ Finset.range h) \ seeds.toFinset).card ≤
        seeds.length + w * h := by
    have hc : ((Finset.range w ×ˢ Finset.range h) \ seeds.toFinset).card ≤
        w * h := by
      calc ((Finset.range w ×ˢ Finset.range h) \ seeds.toFinset).card
          ≤ (Finset.range w ×ˢ Finset.range h).card :=
            Finset.card_le_card Finset.sdiff_subset
      _ = w * h := by simp [Finset.card_product]
    omega
  have hmain := bfsLoop_invariant w h sim (seeds.length + w * h) seeds []
    seeds.toFinset ∅ (by simpa using hsnd) (by simp) (by simp) hfb
  refine ⟨hmain.1, hmain.2.1, hmain.2.2, ?_⟩
  rw [hmain.2.2, List.toFinset_card_of_nodup hmain.1]

/-- Witness for C7 amended on a concrete 3 by 2 grid with an
always-similar test. -/
theorem floodFill_enqueues_once_witness :
    (floodFill 3 2 (fun _ _ => true)).1.Nodup ∧
      (floodFill 3 2 (fun _ _ => true)).1.toFinset =
        (floodFill 3 2 (fun _ _ => true)).2.1 ∧
      (floodFill 3 2 (fun _ _ => true)).2.2 =
        (floodFill 3 2 (fun _ _ => true)).1.toFinset ∧
      (floodFill 3 2 (fun _ _ => true)).1.length =
        (floodFill 3 2 (fun _ _ => true)).2.2.card :=
  floodFill_enqueues_once 3 2 (fun _ _ => true) (by decide)

/-- Counterexample for C7 as stated: on the 1 by 1 light gray image, with
the exact similarity test the mask builder uses, the single pixel is
enqueued twice (once by the top-row seed loop and once by the bottom-row
seed loop, which does not check the visited bitmap), so the number of
pairs that passed through the queue is 2 while only 1 distinct pixel was
classified background-connected. -/
theorem floodFill_duplicate_cex :
    (floodFill 1 1
        (fun x y => simMask img1x1gray (bgEstimateMask img1x1gray) x y)).1 =
      [(0, 0), (0, 0)] ∧
    (floodFill 1 1
        (fun x y => simMask img1x1gray (bgEstimateMask img1x1gray) x y)).2.2 =
      {(0, 0)} ∧
    ¬ (floodFill 1 1
        (fun x y => simMask img1x1gray (bgEstimateMask img1x1gray) x y)).1.length =
      (floodFill 1 1
        (fun x y => simMask img1x1gray (bgEstimateMask img1x1gray) x y)).2.2.card := by
  refine ⟨by decide, by decide, by decide⟩
